import Mathlib

/-!
Verification of the drone-elastic-beanstalk deployment plugin.

The repository contains two variants of the plugin:

* `plugin.go` — a single-environment variant (`Plugin.EnvironmentName`),
  with a pre-update readiness wait (`waitEnvironmentToBeReady`) and a
  reconciliation loop racing a 10-second tick against a deadline timer.
* an unnamed variant (multi-environment, `Plugin.Environments`), which
  issues one `UpdateEnvironment` per configured environment in sequence and
  then polls all environments in one loop.

Both are embedded below.  Remote interaction is modelled by a `World` that
fixes the response of every remote call, and each embedded `Exec` returns
the outcome together with the trace of remote calls it issued.  Go's
`error` values are strings; a `nil` error is `GoResult.ok`; an
index-out-of-range runtime panic is `GoResult.crash`.
-/

namespace DroneEB

/-- `aws.StringValue`: dereference a `*string`, yielding `""` for `nil`. -/
def stringValue (o : Option String) : String := o.getD ""

/-- One element of a `DescribeEnvironments` response (`*string` fields). -/
structure EBEnvironment where
  EnvironmentName : Option String
  Status : Option String
  Health : Option String
  VersionLabel : Option String
deriving DecidableEq

/-- One element of a `DescribeEvents` response. -/
structure EBEvent where
  Message : Option String
deriving DecidableEq

/-- A Go `error` is modelled by its message. -/
abbrev EBError := String

/-- The remote control-plane calls the plugin can issue. -/
inductive RemoteCall where
  | createVersion
  | updateEnvironment (name : String)
  | describeEnvironments
  | describeEvents
deriving DecidableEq

/-- Result of running (a piece of) the plugin: `ok` is a `nil` error,
`fail e` a returned non-nil error, `crash` a runtime index-out-of-range
panic. -/
inductive GoResult where
  | ok
  | fail (e : EBError)
  | crash
deriving DecidableEq

/-- What one poll tick decides: keep polling, or stop with a result. -/
inductive TickStep where
  | next
  | stop (r : GoResult)
deriving DecidableEq

/-- `true` exactly on `UpdateEnvironment` calls. -/
def isUpdate : RemoteCall → Bool
  | RemoteCall.updateEnvironment _ => true
  | _ => false

/-- `true` exactly on the read-only describe calls. -/
def isDescribe : RemoteCall → Bool
  | RemoteCall.describeEnvironments => true
  | RemoteCall.describeEvents => true
  | _ => false

/-- A successful `DescribeEnvironments` response with no environment is the
unsafe case for `Environments[0]`. -/
def SafeEnvResp : Except EBError (List EBEnvironment) → Prop
  | Except.error _ => True
  | Except.ok l => l ≠ []

/-- A successful `DescribeEvents` response with no event is the unsafe case
for `Events[0]`. -/
def SafeEvResp : Except EBError (List EBEvent) → Prop
  | Except.error _ => True
  | Except.ok l => l ≠ []

/-! ## Single-environment variant (`plugin.go`) -/

namespace SingleEnv

/-- The `Plugin` parameter struct of `plugin.go`. -/
structure Plugin where
  Key : String
  Secret : String
  Bucket : String
  Region : String
  BucketKey : String
  Application : String
  EnvironmentName : String
  VersionLabel : String
  Description : String
  AutoCreate : Bool
  Process : Bool
  EnvironmentUpdate : Bool
  Timeout : Nat
deriving DecidableEq

/-- One firing of the reconciliation loop's `select`: either the 10s tick
(carrying the two poll responses) or the deadline timer. -/
inductive Signal where
  | tick (envResp : Except EBError (List EBEnvironment))
         (evResp : Except EBError (List EBEvent))
  | tout

/-- One firing of the `select` inside `waitEnvironmentToBeReady`. -/
inductive WaitSignal where
  | tick (envResp : Except EBError (List EBEnvironment))
  | tout

/-- Body of one poll tick of the reconciliation loop in `plugin.go`:
check the `DescribeEnvironments` error, check the `DescribeEvents` error,
index `Environments[0]` and `Events[0]` (crashing when empty), then
classify `Status`/`VersionLabel` exactly as the source does. -/
def tickBody (p : Plugin) (envResp : Except EBError (List EBEnvironment))
    (evResp : Except EBError (List EBEvent)) : TickStep :=
  match envResp with
  | Except.error e => TickStep.stop (GoResult.fail e)
  | Except.ok envs =>
    match evResp with
    | Except.error e => TickStep.stop (GoResult.fail e)
    | Except.ok events =>
      match envs with
      | [] => TickStep.stop GoResult.crash
      | env :: _ =>
        match events with
        | [] => TickStep.stop GoResult.crash
        | _ :: _ =>
          if stringValue env.Status = "Ready" then
            if p.VersionLabel ≠ stringValue env.VersionLabel then
              TickStep.stop (GoResult.fail "update did not finish")
            else
              TickStep.stop GoResult.ok
          else if stringValue env.Status ≠ "Updating" then
            TickStep.stop (GoResult.fail "environment is not updating")
          else
            TickStep.next

/-- Remote calls issued by one tick: `DescribeEnvironments` always, and
`DescribeEvents` only when the first call succeeded. -/
def tickCalls : Except EBError (List EBEnvironment) → List RemoteCall
  | Except.error _ => [RemoteCall.describeEnvironments]
  | Except.ok _ => [RemoteCall.describeEnvironments, RemoteCall.describeEvents]

/-- The reconciliation `for { select { ... } }` loop of `plugin.go`, run on a
list of signal firings.  `none` means the loop was still blocked when the
supplied signals ran out. -/
def execLoop (p : Plugin) : List Signal → Option GoResult × List RemoteCall
  | [] => (none, [])
  | Signal.tout :: _ => (some (GoResult.fail "timed out"), [])
  | Signal.tick er vr :: rest =>
    match tickBody p er vr with
    | TickStep.stop r => (some r, tickCalls er)
    | TickStep.next =>
      let tail := execLoop p rest
      (tail.1, tickCalls er ++ tail.2)

/-- `waitEnvironmentToBeReady` from `plugin.go`: poll until `Status` is
`"Ready"` (ignoring version), fail on a describe error or on the deadline. -/
def waitEnvironmentToBeReady : List WaitSignal → Option GoResult × List RemoteCall
  | [] => (none, [])
  | WaitSignal.tout :: _ => (some (GoResult.fail "timed out"), [])
  | WaitSignal.tick er :: rest =>
    match er with
    | Except.error e => (some (GoResult.fail e), [RemoteCall.describeEnvironments])
    | Except.ok envs =>
      match envs with
      | [] => (some GoResult.crash, [RemoteCall.describeEnvironments])
      | env :: _ =>
        if stringValue env.Status = "Ready" then
          (some GoResult.ok, [RemoteCall.describeEnvironments])
        else
          let tail := waitEnvironmentToBeReady rest
          (tail.1, RemoteCall.describeEnvironments :: tail.2)

/-- Fixed responses of the remote platform for one `Exec` run. -/
structure World where
  createVersionResult : Except EBError Unit
  waitSignals : List WaitSignal
  updateEnvironmentResult : Except EBError Unit
  loopSignals : List Signal

/-- The `if p.EnvironmentUpdate { ... }` tail of `Exec` in `plugin.go`:
readiness wait, single `UpdateEnvironment`, then the reconciliation loop;
`return nil` when no environment update was requested. -/
def execUpdatePhase (p : Plugin) (w : World) : Option GoResult × List RemoteCall :=
  if p.EnvironmentUpdate then
    let wres := waitEnvironmentToBeReady w.waitSignals
    match wres.1 with
    | none => (none, wres.2)
    | some GoResult.ok =>
      match w.updateEnvironmentResult with
      | Except.error e =>
        (some (GoResult.fail e), wres.2 ++ [RemoteCall.updateEnvironment p.EnvironmentName])
      | Except.ok _ =>
        let lres := execLoop p w.loopSignals
        (lres.1, wres.2 ++ RemoteCall.updateEnvironment p.EnvironmentName :: lres.2)
    | some r => (some r, wres.2)
  else
    (some GoResult.ok, [])

/-- `Exec` from `plugin.go`: optional `CreateApplicationVersion` (aborting on
failure only when no environment update was requested), then the update
phase. -/
def Exec (p : Plugin) (w : World) : Option GoResult × List RemoteCall :=
  if p.Bucket ≠ "" ∧ p.BucketKey ≠ "" then
    match w.createVersionResult with
    | Except.error e =>
      if p.EnvironmentUpdate = false then
        (some (GoResult.fail e), [RemoteCall.createVersion])
      else
        let rest := execUpdatePhase p w
        (rest.1, RemoteCall.createVersion :: rest.2)
    | Except.ok _ =>
      let rest := execUpdatePhase p w
      (rest.1, RemoteCall.createVersion :: rest.2)
  else
    execUpdatePhase p w

/-- Calls attributable to one signal of the reconciliation loop. -/
def signalCalls : Signal → List RemoteCall
  | Signal.tick er _ => tickCalls er
  | Signal.tout => []

/-- Calls of a list of signals, in order. -/
def signalsCalls : List Signal → List RemoteCall
  | [] => []
  | s :: rest => signalCalls s ++ signalsCalls rest

/-- A signal that makes the loop keep polling. -/
def ContinuingSig (p : Plugin) (s : Signal) : Prop :=
  ∃ er vr, s = Signal.tick er vr ∧ tickBody p er vr = TickStep.next

/-- All signals in the list make the loop keep polling. -/
def Continuing (p : Plugin) (sigs : List Signal) : Prop :=
  ∀ s ∈ sigs, ContinuingSig p s

/-- Responses of the j-th poll of the reconciliation loop (j = 1, 2, ...). -/
structure TickOracle where
  envResp : Nat → Except EBError (List EBEnvironment)
  evResp : Nat → Except EBError (List EBEvent)

/-- Timed model of the reconciliation loop's `select`, for the race between
`time.Tick(10s)` (firing at 10, 20, ...) and `time.After(T)` (firing once at
`T`).  `k` ticks have been consumed so far, so the next tick fires at
`10*(k+1)`; whichever of the two timers fires first is taken, and a
simultaneous firing is resolved by the next entry of `choices`
(`true` = take the tick).  Tick bodies run instantaneously via `tickBody`.
Returns the final result with the times of all polls performed, or `none`
when the fuel runs out before the race is decided. -/
def timedLoop (p : Plugin) (o : TickOracle) (T : Nat) :
    Nat → List Bool → Nat → Option (GoResult × List Nat)
  | k, _, 0 =>
    if T < 10 * (k + 1) then some (GoResult.fail "timed out", []) else none
  | k, choices, fuel + 1 =>
    if T < 10 * (k + 1) then
      some (GoResult.fail "timed out", [])
    else if 10 * (k + 1) < T then
      match tickBody p (o.envResp (k + 1)) (o.evResp (k + 1)) with
      | TickStep.stop r => some (r, [10 * (k + 1)])
      | TickStep.next =>
        (timedLoop p o T (k + 1) choices fuel).map
          (fun pr => (pr.1, 10 * (k + 1) :: pr.2))
    else
      match choices with
      | [] => some (GoResult.fail "timed out", [])
      | c :: cs =>
        if c then
          match tickBody p (o.envResp (k + 1)) (o.evResp (k + 1)) with
          | TickStep.stop r => some (r, [10 * (k + 1)])
          | TickStep.next =>
            (timedLoop p o T (k + 1) cs fuel).map
              (fun pr => (pr.1, 10 * (k + 1) :: pr.2))
        else
          some (GoResult.fail "timed out", [])

/-- A loop signal whose successful responses are all non-empty. -/
def SafeSignal : Signal → Prop
  | Signal.tick er vr => SafeEnvResp er ∧ SafeEvResp vr
  | Signal.tout => True

/-- A readiness-wait signal whose successful response is non-empty. -/
def SafeWaitSignal : WaitSignal → Prop
  | WaitSignal.tick er => SafeEnvResp er
  | WaitSignal.tout => True

/-- Every successful poll response of the world is non-empty. -/
def SafeWorld (w : World) : Prop :=
  (∀ s ∈ w.waitSignals, SafeWaitSignal s) ∧ (∀ s ∈ w.loopSignals, SafeSignal s)

end SingleEnv

/-! ## Multi-environment variant (unnamed source file) -/

namespace MultiEnv

/-- The `Plugin` parameter struct of the multi-environment variant. -/
structure Plugin where
  Key : String
  Secret : String
  Bucket : String
  Region : String
  BucketKey : String
  Application : String
  Environments : List String
  VersionLabel : String
  Description : String
  AutoCreate : Bool
  Process : Bool
  EnvironmentUpdate : Bool
  Timeout : Nat

/-- One firing of the reconciliation loop's `select` in the
multi-environment variant.  The tick carries the `DescribeEnvironments`
response and, positionally, the `DescribeEvents` response for each
environment of that response. -/
inductive Signal where
  | tick (envResp : Except EBError (List EBEnvironment))
         (evResp : Nat → Except EBError (List EBEvent))
  | tout

/-- The `for _, env := range envs.Environments` body of the multi-environment
reconciliation tick: per environment, fetch its latest events (`evResp i`),
fail on a describe error, then classify.  Note the source's fall-through:
a `Ready` environment with the *matching* version still reaches the
`status != "Updating"` check and stops with `"environment is not updating"`.
The failure logs index `event.Events[0]`, crashing when the events list is
empty. -/
def processEnvs (p : Plugin) (evResp : Nat → Except EBError (List EBEvent)) :
    List EBEnvironment → Nat → TickStep × List RemoteCall
  | [], _ => (TickStep.next, [])
  | env :: rest, i =>
    match evResp i with
    | Except.error e => (TickStep.stop (GoResult.fail e), [RemoteCall.describeEvents])
    | Except.ok events =>
      if stringValue env.Status = "Ready" ∧ p.VersionLabel ≠ stringValue env.VersionLabel then
        match events with
        | [] => (TickStep.stop GoResult.crash, [RemoteCall.describeEvents])
        | _ :: _ => (TickStep.stop (GoResult.fail "version mismatch"), [RemoteCall.describeEvents])
      else if stringValue env.Status ≠ "Updating" then
        match events with
        | [] => (TickStep.stop GoResult.crash, [RemoteCall.describeEvents])
        | _ :: _ =>
          (TickStep.stop (GoResult.fail "environment is not updating"), [RemoteCall.describeEvents])
      else
        let tail := processEnvs p evResp rest (i + 1)
        (tail.1, RemoteCall.describeEvents :: tail.2)

/-- The reconciliation `for { select { ... } }` loop of the multi-environment
variant.  `none` means the loop was still blocked when the supplied signals
ran out. -/
def execLoop (p : Plugin) : List Signal → Option GoResult × List RemoteCall
  | [] => (none, [])
  | Signal.tout :: _ => (some (GoResult.fail "timed out"), [])
  | Signal.tick er evf :: rest =>
    match er with
    | Except.error e => (some (GoResult.fail e), [RemoteCall.describeEnvironments])
    | Except.ok envs =>
      match processEnvs p evf envs 0 with
      | (TickStep.stop r, calls) => (some r, RemoteCall.describeEnvironments :: calls)
      | (TickStep.next, calls) =>
        let tail := execLoop p rest
        (tail.1, RemoteCall.describeEnvironments :: calls ++ tail.2)

/-- The `for _, environmentName := range p.Environments` update loop:
one `UpdateEnvironment` per configured environment, aborting on the first
error. -/
def updateEnvironments (updResult : String → Except EBError Unit) :
    List String → Option EBError × List RemoteCall
  | [] => (none, [])
  | name :: rest =>
    match updResult name with
    | Except.error e => (some e, [RemoteCall.updateEnvironment name])
    | Except.ok _ =>
      let tail := updateEnvironments updResult rest
      (tail.1, RemoteCall.updateEnvironment name :: tail.2)

/-- Fixed responses of the remote platform for one multi-environment `Exec`
run.  `updateEnvironmentResult` is keyed by environment name. -/
structure World where
  createVersionResult : Except EBError Unit
  updateEnvironmentResult : String → Except EBError Unit
  loopSignals : List Signal

/-- Everything after the `CreateApplicationVersion` block in the
multi-environment `Exec`: sequential updates, then the reconciliation loop;
`return nil` when no environment update was requested. -/
def execAfterCreate (p : Plugin) (w : World) : Option GoResult × List RemoteCall :=
  if p.EnvironmentUpdate then
    let upd := updateEnvironments w.updateEnvironmentResult p.Environments
    match upd.1 with
    | some e => (some (GoResult.fail e), upd.2)
    | none =>
      let lres := execLoop p w.loopSignals
      (lres.1, upd.2 ++ lres.2)
  else
    (some GoResult.ok, [])

/-- `Exec` of the multi-environment variant: a failed
`CreateApplicationVersion` aborts unconditionally. -/
def Exec (p : Plugin) (w : World) : Option GoResult × List RemoteCall :=
  if p.Bucket ≠ "" ∧ p.BucketKey ≠ "" then
    match w.createVersionResult with
    | Except.error e => (some (GoResult.fail e), [RemoteCall.createVersion])
    | Except.ok _ =>
      let rest := execAfterCreate p w
      (rest.1, RemoteCall.createVersion :: rest.2)
  else
    execAfterCreate p w

/-- Calls attributable to one signal of the reconciliation loop. -/
def signalCalls (p : Plugin) : Signal → List RemoteCall
  | Signal.tick er evf =>
    match er with
    | Except.error _ => [RemoteCall.describeEnvironments]
    | Except.ok envs => RemoteCall.describeEnvironments :: (processEnvs p evf envs 0).2
  | Signal.tout => []

/-- Calls of a list of signals, in order. -/
def signalsCalls (p : Plugin) : List Signal → List RemoteCall
  | [] => []
  | s :: rest => signalCalls p s ++ signalsCalls p rest

/-- A signal that makes the loop keep polling. -/
def ContinuingSig (p : Plugin) (s : Signal) : Prop :=
  ∃ envs evf, s = Signal.tick (Except.ok envs) evf ∧
    (processEnvs p evf envs 0).1 = TickStep.next

/-- All signals in the list make the loop keep polling. -/
def Continuing (p : Plugin) (sigs : List Signal) : Prop :=
  ∀ s ∈ sigs, ContinuingSig p s

/-- A multi-environment loop signal whose successful `DescribeEvents`
responses are all non-empty (the only unchecked indexing in this variant is
`event.Events[0]` in the failure logs). -/
def SafeSignal : Signal → Prop
  | Signal.tick _ evf => ∀ i, SafeEvResp (evf i)
  | Signal.tout => True

/-- Every successful `DescribeEvents` response of the world is non-empty. -/
def SafeWorld (w : World) : Prop :=
  ∀ s ∈ w.loopSignals, SafeSignal s

end MultiEnv

/-! ## Concrete snapshots and runs used in closed theorems -/

/-- A `Ready`/`Green` snapshot of environment `e1` reporting version `v`. -/
def readyEnv (v : String) : EBEnvironment :=
  ⟨some "e1", some "Ready", some "Green", some v⟩

/-- An `Updating` snapshot of environment `e1`. -/
def updatingEnv : EBEnvironment :=
  ⟨some "e1", some "Updating", some "Grey", some "old"⟩

/-- A `Terminating` snapshot of environment `e1`. -/
def terminatingEnv : EBEnvironment :=
  ⟨some "e1", some "Terminating", some "Grey", some "old"⟩

/-- A sample event record. -/
def ev1 : EBEvent := ⟨some "deploying new version to instances"⟩

/-- Single-environment plugin: update `e1` of `app` to version `v1`, no
artifact upload. -/
def p1s : SingleEnv.Plugin :=
  ⟨"", "", "", "us-east-1", "", "app", "e1", "v1", "", false, false, true, 20⟩

/-- A world for `p1s`: the readiness wait sees `Ready` at once, the update
succeeds, and the first reconcile poll reports `Ready` with version `v1`;
a second poll response is available but must never be consumed. -/
def w1s : SingleEnv.World :=
  ⟨Except.ok (),
   [SingleEnv.WaitSignal.tick (Except.ok [readyEnv "old"])],
   Except.ok (),
   [SingleEnv.Signal.tick (Except.ok [readyEnv "v1"]) (Except.ok [ev1]),
    SingleEnv.Signal.tick (Except.ok [readyEnv "v1"]) (Except.ok [ev1])]⟩

/-- Multi-environment plugin: update `e1` of `app` to version `v1`, no
artifact upload. -/
def p1m : MultiEnv.Plugin :=
  ⟨"", "", "", "us-east-1", "", "app", ["e1"], "v1", "", false, false, true, 20⟩

/-- A world for `p1m`: the update succeeds and the first reconcile poll
reports `Ready` with the desired version `v1` and one event. -/
def w1m : MultiEnv.World :=
  ⟨Except.ok (),
   fun _ => Except.ok (),
   [MultiEnv.Signal.tick (Except.ok [readyEnv "v1"]) (fun _ => Except.ok [ev1])]⟩

/-! ## Helper lemmas -/

/-- The update phase never reads the `CreateApplicationVersion` result. -/
theorem execUpdatePhase_create_irrel (p : SingleEnv.Plugin) (w : SingleEnv.World)
    (c : Except EBError Unit) :
    SingleEnv.execUpdatePhase p { w with createVersionResult := c } =
      SingleEnv.execUpdatePhase p w := by
  cases w
  rfl

/-- A prefix of polls that all keep the single-environment loop going merely
prepends its describe calls: the loop's result is decided by the remaining
signals. -/
theorem execLoop_continuing (p : SingleEnv.Plugin) (pre rest : List SingleEnv.Signal)
    (h : SingleEnv.Continuing p pre) :
    SingleEnv.execLoop p (pre ++ rest) =
      ((SingleEnv.execLoop p rest).1,
       SingleEnv.signalsCalls pre ++ (SingleEnv.execLoop p rest).2) := by
  induction pre with
  | nil => simp [SingleEnv.signalsCalls]
  | cons s pre ih =>
    obtain ⟨er, vr, hs, hnext⟩ := h s (List.mem_cons_self s pre)
    subst hs
    have hpre : SingleEnv.Continuing p pre := fun t ht => h t (List.mem_cons_of_mem _ ht)
    simp [SingleEnv.execLoop, hnext, SingleEnv.signalsCalls, SingleEnv.signalCalls,
      ih hpre, List.append_assoc]

/-- A prefix of polls that all keep the multi-environment loop going merely
prepends its describe calls: the loop's result is decided by the remaining
signals. -/
theorem mexecLoop_continuing (p : MultiEnv.Plugin) (pre rest : List MultiEnv.Signal)
    (h : MultiEnv.Continuing p pre) :
    MultiEnv.execLoop p (pre ++ rest) =
      ((MultiEnv.execLoop p rest).1,
       MultiEnv.signalsCalls p pre ++ (MultiEnv.execLoop p rest).2) := by
  induction pre with
  | nil => simp [MultiEnv.signalsCalls]
  | cons s pre ih =>
    obtain ⟨envs, evf, hs, hnext⟩ := h s (List.mem_cons_self s pre)
    subst hs
    have hpre : MultiEnv.Continuing p pre := fun t ht => h t (List.mem_cons_of_mem _ ht)
    rcases hpe : MultiEnv.processEnvs p evf envs 0 with ⟨step, calls⟩
    rw [hpe] at hnext
    simp only at hnext
    subst hnext
    simp [MultiEnv.execLoop, hpe, MultiEnv.signalsCalls, MultiEnv.signalCalls,
      ih hpre, List.append_assoc]

/-! ## Claims -/

/-- C1: for a poll tick whose snapshot is `Ready` with the desired version,
the single-environment variant terminates the loop with a nil error at that
tick, exactly once, issuing no further describe polls (the second prepared
poll response of `w1s` is never consumed).  The multi-environment variant,
however, falls through its `Ready`-and-matching-version case into the
`status != "Updating"` check and returns the error `"environment is not
updating"` instead of succeeding: the code contradicts the specified
(and clearly intended) Succeeded outcome. -/
theorem claim_C1 :
    MultiEnv.Exec p1m w1m =
      (some (GoResult.fail "environment is not updating"),
       [RemoteCall.updateEnvironment "e1", RemoteCall.describeEnvironments,
        RemoteCall.describeEvents]) ∧
    SingleEnv.Exec p1s w1s =
      (some GoResult.ok,
       [RemoteCall.describeEnvironments, RemoteCall.updateEnvironment "e1",
        RemoteCall.describeEnvironments, RemoteCall.describeEvents]) := by
  exact ⟨rfl, rfl⟩

/-- Multi-environment plugin with an artifact location (`b`/`k`) and an
environment update requested. -/
def p2c : MultiEnv.Plugin :=
  ⟨"", "", "b", "us-east-1", "k", "app", ["e1"], "v1", "", false, false, true, 20⟩

/-- A world for `p2c` whose `CreateApplicationVersion` call fails; the
update and poll responses are prepared but must never be used. -/
def w2c : MultiEnv.World :=
  ⟨Except.error "boom",
   fun _ => Except.ok (),
   [MultiEnv.Signal.tick (Except.ok [updatingEnv]) (fun _ => Except.ok [ev1])]⟩

/-- C2, counterexample: in the multi-environment variant, with an artifact
location supplied, a failed `CreateApplicationVersion`, and an environment
update requested, `Exec` aborts immediately with that error and issues no
`UpdateEnvironment` call — the flow does not proceed as the claim states. -/
theorem claim_C2_counterexample :
    p2c.EnvironmentUpdate = true ∧
    MultiEnv.Exec p2c w2c = (some (GoResult.fail "boom"), [RemoteCall.createVersion]) ∧
    RemoteCall.updateEnvironment "e1" ∉ (MultiEnv.Exec p2c w2c).2 := by
  exact ⟨rfl, rfl, by decide⟩

/-- C2, amended: in the single-environment variant a failed
`CreateApplicationVersion` aborts `Exec` with that error when no environment
update was requested, and is ignored when one was requested — the run then
proceeds exactly as if the call had succeeded.  In the multi-environment
variant a failed `CreateApplicationVersion` always aborts immediately with
that error, even when an environment update was requested. -/
theorem claim_C2 :
    (∀ (p : SingleEnv.Plugin) (w : SingleEnv.World) (e : EBError),
      p.Bucket ≠ "" → p.BucketKey ≠ "" → w.createVersionResult = Except.error e →
      (p.EnvironmentUpdate = false →
        SingleEnv.Exec p w = (some (GoResult.fail e), [RemoteCall.createVersion])) ∧
      (p.EnvironmentUpdate = true →
        SingleEnv.Exec p w =
          SingleEnv.Exec p { w with createVersionResult := Except.ok () })) ∧
    (∀ (p : MultiEnv.Plugin) (w : MultiEnv.World) (e : EBError),
      p.Bucket ≠ "" → p.BucketKey ≠ "" → w.createVersionResult = Except.error e →
      MultiEnv.Exec p w = (some (GoResult.fail e), [RemoteCall.createVersion])) := by
  constructor
  · intro p w e hb hk hc
    constructor
    · intro hu
      simp [SingleEnv.Exec, hb, hk, hc, hu]
    · intro hu
      simp [SingleEnv.Exec, hb, hk, hc, hu, execUpdatePhase_create_irrel]
  · intro p w e hb hk hc
    simp [MultiEnv.Exec, hb, hk, hc]

/-- Single-environment plugin with an artifact location and no environment
update requested. -/
def p2s : SingleEnv.Plugin :=
  ⟨"", "", "b", "us-east-1", "k", "app", "e1", "v1", "", false, false, false, 20⟩

/-- Single-environment plugin with an artifact location and an environment
update requested. -/
def p2t : SingleEnv.Plugin :=
  ⟨"", "", "b", "us-east-1", "k", "app", "e1", "v1", "", false, false, true, 20⟩

/-- A single-environment world whose `CreateApplicationVersion` call fails. -/
def w2s : SingleEnv.World :=
  ⟨Except.error "boom",
   [SingleEnv.WaitSignal.tick (Except.ok [readyEnv "old"])],
   Except.ok (),
   [SingleEnv.Signal.tick (Except.ok [readyEnv "v1"]) (Except.ok [ev1])]⟩

/-- C2, witness: the amended statement applied at concrete runs. -/
theorem claim_C2_witness :
    SingleEnv.Exec p2s w2s = (some (GoResult.fail "boom"), [RemoteCall.createVersion]) ∧
    SingleEnv.Exec p2t w2s =
      SingleEnv.Exec p2t { w2s with createVersionResult := Except.ok () } ∧
    MultiEnv.Exec p2c w2c = (some (GoResult.fail "boom"), [RemoteCall.createVersion]) := by
  refine ⟨(claim_C2.1 p2s w2s "boom" (by decide) (by decide) rfl).1 rfl,
    (claim_C2.1 p2t w2s "boom" (by decide) (by decide) rfl).2 rfl,
    claim_C2.2 p2c w2c "boom" (by decide) (by decide) rfl⟩

/-- C3: in the multi-environment variant, when the first configured
environment's `UpdateEnvironment` call fails, `Exec` returns that error and
the only `UpdateEnvironment` call in the whole run is the one for the first
environment — the remaining environments receive none. -/
theorem claim_C3 (p : MultiEnv.Plugin) (w : MultiEnv.World) (env1 : String)
    (rest : List String) (e : EBError)
    (henv : p.Environments = env1 :: rest)
    (hupd : p.EnvironmentUpdate = true)
    (hcreate : p.Bucket = "" ∨ p.BucketKey = "" ∨ w.createVersionResult = Except.ok ())
    (hfail : w.updateEnvironmentResult env1 = Except.error e) :
    (MultiEnv.Exec p w).1 = some (GoResult.fail e) ∧
    (MultiEnv.Exec p w).2.filter isUpdate = [RemoteCall.updateEnvironment env1] := by
  have hafter : MultiEnv.execAfterCreate p w =
      (some (GoResult.fail e), [RemoteCall.updateEnvironment env1]) := by
    simp [MultiEnv.execAfterCreate, hupd, henv, MultiEnv.updateEnvironments, hfail]
  unfold MultiEnv.Exec
  by_cases hbc : p.Bucket ≠ "" ∧ p.BucketKey ≠ ""
  · rcases hcreate with h | h | h
    · exact absurd h hbc.1
    · exact absurd h hbc.2
    · rw [if_pos hbc, h]
      simp [hafter, isUpdate]
  · rw [if_neg hbc, hafter]
    simp [isUpdate]

/-- Multi-environment plugin configured with two environments `a`, `b`. -/
def p3 : MultiEnv.Plugin :=
  ⟨"", "", "", "us-east-1", "", "app", ["a", "b"], "v1", "", false, false, true, 20⟩

/-- A world for `p3` where updating `a` is denied. -/
def w3 : MultiEnv.World :=
  ⟨Except.ok (),
   fun name => if name = "a" then Except.error "denied" else Except.ok (),
   []⟩

/-- C3, witness: with environments `[a, b]` and `a`'s update denied, the run
fails with that error and only `a` ever receives an `UpdateEnvironment`. -/
theorem claim_C3_witness :
    (MultiEnv.Exec p3 w3).1 = some (GoResult.fail "denied") ∧
    (MultiEnv.Exec p3 w3).2.filter isUpdate = [RemoteCall.updateEnvironment "a"] :=
  claim_C3 p3 w3 "a" ["b"] "denied" rfl rfl (Or.inl rfl) rfl

/-- C4: after any run of polls that keep the loop going, a poll whose
snapshot is `Ready` with a version different from the desired label makes
the reconciliation loop terminate immediately with a non-nil error (the
single-environment variant's `"update did not finish"`, the
multi-environment variant's `"version mismatch"`), without consuming any
later signal — in particular without waiting for the timeout. -/
theorem claim_C4 :
    (∀ (p : SingleEnv.Plugin) (pre post : List SingleEnv.Signal)
       (env : EBEnvironment) (envs : List EBEnvironment) (ev : EBEvent) (evs : List EBEvent),
      SingleEnv.Continuing p pre →
      stringValue env.Status = "Ready" →
      p.VersionLabel ≠ stringValue env.VersionLabel →
      SingleEnv.execLoop p
          (pre ++ SingleEnv.Signal.tick (Except.ok (env :: envs))
            (Except.ok (ev :: evs)) :: post) =
        (some (GoResult.fail "update did not finish"),
         SingleEnv.signalsCalls pre ++
           [RemoteCall.describeEnvironments, RemoteCall.describeEvents])) ∧
    (∀ (p : MultiEnv.Plugin) (pre post : List MultiEnv.Signal)
       (env : EBEnvironment) (envs : List EBEnvironment)
       (evf : Nat → Except EBError (List EBEvent)) (ev : EBEvent) (evs : List EBEvent),
      MultiEnv.Continuing p pre →
      stringValue env.Status = "Ready" →
      p.VersionLabel ≠ stringValue env.VersionLabel →
      evf 0 = Except.ok (ev :: evs) →
      MultiEnv.execLoop p
          (pre ++ MultiEnv.Signal.tick (Except.ok (env :: envs)) evf :: post) =
        (some (GoResult.fail "version mismatch"),
         MultiEnv.signalsCalls p pre ++
           [RemoteCall.describeEnvironments, RemoteCall.describeEvents])) := by
  constructor
  · intro p pre post env envs ev evs hpre hready hmis
    rw [execLoop_continuing p pre _ hpre]
    simp [SingleEnv.execLoop, SingleEnv.tickBody, SingleEnv.tickCalls, hready, hmis]
  · intro p pre post env envs evf ev evs hpre hready hmis hev
    rw [mexecLoop_continuing p pre _ hpre]
    simp [MultiEnv.execLoop, MultiEnv.processEnvs, hready, hmis, hev]

/-- C4, witness: a first poll reporting `Ready` at version `v4` while `v1`
is desired stops each variant's loop with its mismatch error. -/
theorem claim_C4_witness :
    SingleEnv.execLoop p1s
        [SingleEnv.Signal.tick (Except.ok [readyEnv "v4"]) (Except.ok [ev1])] =
      (some (GoResult.fail "update did not finish"),
       [RemoteCall.describeEnvironments, RemoteCall.describeEvents]) ∧
    MultiEnv.execLoop p1m
        [MultiEnv.Signal.tick (Except.ok [readyEnv "v4"]) (fun _ => Except.ok [ev1])] =
      (some (GoResult.fail "version mismatch"),
       [RemoteCall.describeEnvironments, RemoteCall.describeEvents]) := by
  constructor
  · have h := claim_C4.1 p1s [] [] (readyEnv "v4") [] ev1 []
      (fun s hs => absurd hs (List.not_mem_nil s)) rfl (by decide)
    simpa [SingleEnv.signalsCalls] using h
  · have h := claim_C4.2 p1m [] [] (readyEnv "v4") [] (fun _ => Except.ok [ev1]) ev1 []
      (fun s hs => absurd hs (List.not_mem_nil s)) rfl (by decide) rfl
    simpa [MultiEnv.signalsCalls] using h

/-- C5: after any run of polls that keep the loop going, a poll whose
snapshot has a status that is neither `Ready` nor `Updating` makes the
reconciliation loop of either variant terminate immediately with the
`"environment is not updating"` error, without consuming any later
signal. -/
theorem claim_C5 :
    (∀ (p : SingleEnv.Plugin) (pre post : List SingleEnv.Signal)
       (env : EBEnvironment) (envs : List EBEnvironment) (ev : EBEvent) (evs : List EBEvent),
      SingleEnv.Continuing p pre →
      stringValue env.Status ≠ "Ready" →
      stringValue env.Status ≠ "Updating" →
      SingleEnv.execLoop p
          (pre ++ SingleEnv.Signal.tick (Except.ok (env :: envs))
            (Except.ok (ev :: evs)) :: post) =
        (some (GoResult.fail "environment is not updating"),
         SingleEnv.signalsCalls pre ++
           [RemoteCall.describeEnvironments, RemoteCall.describeEvents])) ∧
    (∀ (p : MultiEnv.Plugin) (pre post : List MultiEnv.Signal)
       (env : EBEnvironment) (envs : List EBEnvironment)
       (evf : Nat → Except EBError (List EBEvent)) (ev : EBEvent) (evs : List EBEvent),
      MultiEnv.Continuing p pre →
      stringValue env.Status ≠ "Ready" →
      stringValue env.Status ≠ "Updating" →
      evf 0 = Except.ok (ev :: evs) →
      MultiEnv.execLoop p
          (pre ++ MultiEnv.Signal.tick (Except.ok (env :: envs)) evf :: post) =
        (some (GoResult.fail "environment is not updating"),
         MultiEnv.signalsCalls p pre ++
           [RemoteCall.describeEnvironments, RemoteCall.describeEvents])) := by
  constructor
  · intro p pre post env envs ev evs hpre hnr hnu
    rw [execLoop_continuing p pre _ hpre]
    simp [SingleEnv.execLoop, SingleEnv.tickBody, SingleEnv.tickCalls, hnr, hnu]
  · intro p pre post env envs evf ev evs hpre hnr hnu hev
    rw [mexecLoop_continuing p pre _ hpre]
    simp [MultiEnv.execLoop, MultiEnv.processEnvs, hnr, hnu, hev]

/-- C5, witness: a first poll reporting a `Terminating` snapshot stops each
variant's loop with the `"environment is not updating"` error. -/
theorem claim_C5_witness :
    SingleEnv.execLoop p1s
        [SingleEnv.Signal.tick (Except.ok [terminatingEnv]) (Except.ok [ev1])] =
      (some (GoResult.fail "environment is not updating"),
       [RemoteCall.describeEnvironments, RemoteCall.describeEvents]) ∧
    MultiEnv.execLoop p1m
        [MultiEnv.Signal.tick (Except.ok [terminatingEnv]) (fun _ => Except.ok [ev1])] =
      (some (GoResult.fail "environment is not updating"),
       [RemoteCall.describeEnvironments, RemoteCall.describeEvents]) := by
  constructor
  · have h := claim_C5.1 p1s [] [] terminatingEnv [] ev1 []
      (fun s hs => absurd hs (List.not_mem_nil s)) (by decide) (by decide)
    simpa [SingleEnv.signalsCalls] using h
  · have h := claim_C5.2 p1m [] [] terminatingEnv [] (fun _ => Except.ok [ev1]) ev1 []
      (fun s hs => absurd hs (List.not_mem_nil s)) (by decide) (by decide) rfl
    simpa [MultiEnv.signalsCalls] using h

/-- Once the deadline lies strictly before the next tick, the timed loop
resolves to the timeout at once, performing no further polls. -/
theorem timedLoop_past (p : SingleEnv.Plugin) (o : SingleEnv.TickOracle) (T k : Nat)
    (h : T < 10 * (k + 1)) (choices : List Bool) (fuel : Nat) :
    SingleEnv.timedLoop p o T k choices fuel = some (GoResult.fail "timed out", []) := by
  cases fuel with
  | zero => simp [SingleEnv.timedLoop, h]
  | succ fuel => simp [SingleEnv.timedLoop, h]

/-- If every tick that can fire up to the deadline keeps the loop going,
the timed loop (given enough fuel) ends in the timeout, and at most one of
its polls happens at or after the deadline. -/
theorem timedLoop_timeout (p : SingleEnv.Plugin) (o : SingleEnv.TickOracle) (T : Nat)
    (H : ∀ j, 10 * j ≤ T →
      SingleEnv.tickBody p (o.envResp j) (o.evResp j) = TickStep.next) :
    ∀ (fuel k : Nat) (choices : List Bool), T ≤ 10 * (fuel + k) →
      ∃ polls, SingleEnv.timedLoop p o T k choices fuel =
          some (GoResult.fail "timed out", polls) ∧
        (polls.filter (fun t => decide (T ≤ t))).length ≤ 1 := by
  intro fuel
  induction fuel with
  | zero =>
    intro k choices hk
    have h1 : T < 10 * (k + 1) := by omega
    exact ⟨[], by simp [SingleEnv.timedLoop, h1], by simp⟩
  | succ fuel ih =>
    intro k choices hk
    by_cases h1 : T < 10 * (k + 1)
    · exact ⟨[], by simp [SingleEnv.timedLoop, h1], by simp⟩
    · by_cases h2 : 10 * (k + 1) < T
      · have hnext := H (k + 1) (by omega)
        obtain ⟨polls, hrun, hcount⟩ := ih (k + 1) choices (by omega)
        refine ⟨10 * (k + 1) :: polls, ?_, ?_⟩
        · simp [SingleEnv.timedLoop, h1, h2, hnext, hrun]
        · have hlt : ¬ (T ≤ 10 * (k + 1)) := by omega
          simpa [List.filter_cons, hlt] using hcount
      · cases choices with
        | nil => exact ⟨[], by simp [SingleEnv.timedLoop, h1, h2], by simp⟩
        | cons c cs =>
          cases c with
          | false => exact ⟨[], by simp [SingleEnv.timedLoop, h1, h2], by simp⟩
          | true =>
            have hnext := H (k + 1) (by omega)
            have hrest : SingleEnv.timedLoop p o T (k + 1) cs fuel =
                some (GoResult.fail "timed out", []) :=
              timedLoop_past p o T (k + 1) (by omega) cs fuel
            refine ⟨[10 * (k + 1)], ?_, ?_⟩
            · simp [SingleEnv.timedLoop, h1, h2, hnext, hrest]
            · exact le_trans (List.length_filter_le _ _) (by simp)

/-- C6: in the timed model of the single-environment reconciliation loop
(tick every 10 seconds, one-shot deadline at `T`, simultaneous firings
resolved arbitrarily by `choices`), if every tick firing up to the deadline
keeps the loop going, the loop terminates with the `"timed out"` error and
at most one poll happens at or after the deadline.  In the multi-environment
loop, the deadline firing likewise terminates the loop at once with
`"timed out"` and no further polls. -/
theorem claim_C6 :
    (∀ (p : SingleEnv.Plugin) (o : SingleEnv.TickOracle) (T : Nat) (choices : List Bool),
      (∀ j, 10 * j ≤ T →
        SingleEnv.tickBody p (o.envResp j) (o.evResp j) = TickStep.next) →
      ∃ polls, SingleEnv.timedLoop p o T 0 choices T =
          some (GoResult.fail "timed out", polls) ∧
        (polls.filter (fun t => decide (T ≤ t))).length ≤ 1) ∧
    (∀ (p : MultiEnv.Plugin) (rest : List MultiEnv.Signal),
      MultiEnv.execLoop p (MultiEnv.Signal.tout :: rest) =
        (some (GoResult.fail "timed out"), [])) := by
  constructor
  · intro p o T choices H
    exact timedLoop_timeout p o T H T 0 choices (by omega)
  · intro p rest
    rfl

/-- An oracle whose every poll reports an `Updating` snapshot. -/
def o6 : SingleEnv.TickOracle :=
  ⟨fun _ => Except.ok [updatingEnv], fun _ => Except.ok [ev1]⟩

/-- C6, witness: with a 30-second deadline, polls that always report
`Updating`, and the adversarial tie-break taking the tick at `t = 30`, the
loop times out with at most one poll at or past the deadline. -/
theorem claim_C6_witness :
    (∃ polls, SingleEnv.timedLoop p1s o6 30 0 [true] 30 =
        some (GoResult.fail "timed out", polls) ∧
      (polls.filter (fun t => decide (30 ≤ t))).length ≤ 1) ∧
    MultiEnv.execLoop p1m [MultiEnv.Signal.tout] =
      (some (GoResult.fail "timed out"), []) :=
  ⟨claim_C6.1 p1s o6 30 [true] (fun _ _ => rfl), claim_C6.2 p1m []⟩

/-- Every remote call of the readiness wait is a `DescribeEnvironments`. -/
theorem wait_calls_describe (sigs : List SingleEnv.WaitSignal) :
    ∀ c ∈ (SingleEnv.waitEnvironmentToBeReady sigs).2,
      c = RemoteCall.describeEnvironments := by
  induction sigs with
  | nil => simp [SingleEnv.waitEnvironmentToBeReady]
  | cons s rest ih =>
    cases s with
    | tout => simp [SingleEnv.waitEnvironmentToBeReady]
    | tick er =>
      cases er with
      | error e => simp [SingleEnv.waitEnvironmentToBeReady]
      | ok envs =>
        cases envs with
        | nil => simp [SingleEnv.waitEnvironmentToBeReady]
        | cons env more =>
          by_cases h : stringValue env.Status = "Ready"
          · simp [SingleEnv.waitEnvironmentToBeReady, h]
          · intro c hc
            simp [SingleEnv.waitEnvironmentToBeReady, h] at hc
            rcases hc with rfl | hc
            · rfl
            · exact ih c hc

/-- C7: in the single-environment variant, when the pre-update readiness
wait returns an error (its `"timed out"` deadline or a failed
`DescribeEnvironments`), `Exec` returns that very error and the run's call
trace contains no `UpdateEnvironment` call at all. -/
theorem claim_C7 (p : SingleEnv.Plugin) (w : SingleEnv.World) (e : EBError)
    (hupd : p.EnvironmentUpdate = true)
    (hwait : (SingleEnv.waitEnvironmentToBeReady w.waitSignals).1 =
      some (GoResult.fail e)) :
    (SingleEnv.Exec p w).1 = some (GoResult.fail e) ∧
    ∀ name, RemoteCall.updateEnvironment name ∉ (SingleEnv.Exec p w).2 := by
  have hphase : SingleEnv.execUpdatePhase p w =
      (some (GoResult.fail e),
       (SingleEnv.waitEnvironmentToBeReady w.waitSignals).2) := by
    simp [SingleEnv.execUpdatePhase, hupd, hwait]
  have hwc := wait_calls_describe w.waitSignals
  have hnotin : ∀ name, RemoteCall.updateEnvironment name ∉
      (SingleEnv.waitEnvironmentToBeReady w.waitSignals).2 := by
    intro name hmem
    exact absurd (hwc _ hmem) (by simp)
  unfold SingleEnv.Exec
  by_cases hbc : p.Bucket ≠ "" ∧ p.BucketKey ≠ ""
  · rw [if_pos hbc]
    cases hcv : w.createVersionResult with
    | error ce =>
      refine ⟨?_, ?_⟩
      · simp [hupd, hphase]
      · intro name
        simp [hupd, hphase]
        exact fun h => hnotin name h
    | ok u =>
      refine ⟨?_, ?_⟩
      · simp [hphase]
      · intro name
        simp [hphase]
        exact fun h => hnotin name h
  · rw [if_neg hbc, hphase]
    exact ⟨rfl, fun name => hnotin name⟩

/-- A world whose readiness wait hits the deadline immediately. -/
def w7 : SingleEnv.World :=
  ⟨Except.ok (), [SingleEnv.WaitSignal.tout], Except.ok (), []⟩

/-- C7, witness: a readiness wait that times out makes `Exec` fail with
`"timed out"` and issue no `UpdateEnvironment`. -/
theorem claim_C7_witness :
    (SingleEnv.Exec p1s w7).1 = some (GoResult.fail "timed out") ∧
    ∀ name, RemoteCall.updateEnvironment name ∉ (SingleEnv.Exec p1s w7).2 :=
  claim_C7 p1s w7 "timed out" rfl rfl

/-- A describe call is not an update call. -/
theorem describe_not_update (c : RemoteCall) (h : isDescribe c = true) :
    isUpdate c = false := by
  cases c <;> simp [isDescribe, isUpdate] at h ⊢

/-- The calls of one tick are describe calls. -/
theorem tickCalls_describe (er : Except EBError (List EBEnvironment)) :
    ∀ c ∈ SingleEnv.tickCalls er, isDescribe c = true := by
  cases er <;> intro c hc <;> simp [SingleEnv.tickCalls] at hc
  · subst hc; rfl
  · rcases hc with rfl | rfl <;> rfl

/-- Every call of the single-environment reconciliation loop is a describe
call. -/
theorem execLoop_calls_describe (p : SingleEnv.Plugin) (sigs : List SingleEnv.Signal) :
    ∀ c ∈ (SingleEnv.execLoop p sigs).2, isDescribe c = true := by
  induction sigs with
  | nil => intro c hc; simp [SingleEnv.execLoop] at hc
  | cons s rest ih =>
    cases s with
    | tout => intro c hc; simp [SingleEnv.execLoop] at hc
    | tick er vr =>
      intro c hc
      simp only [SingleEnv.execLoop] at hc
      cases htb : SingleEnv.tickBody p er vr with
      | stop r =>
        rw [htb] at hc
        exact tickCalls_describe er c hc
      | next =>
        rw [htb] at hc
        simp at hc
        rcases hc with hc | hc
        · exact tickCalls_describe er c hc
        · exact ih c hc

/-- Every call of the per-environment processing of one multi-environment
tick is a `DescribeEvents`. -/
theorem processEnvs_calls (p : MultiEnv.Plugin)
    (evf : Nat → Except EBError (List EBEvent)) :
    ∀ (envs : List EBEnvironment) (i : Nat),
      ∀ c ∈ (MultiEnv.processEnvs p evf envs i).2, c = RemoteCall.describeEvents := by
  intro envs
  induction envs with
  | nil => intro i c hc; simp [MultiEnv.processEnvs] at hc
  | cons env rest ih =>
    intro i c hc
    cases hev : evf i with
    | error e =>
      simp [MultiEnv.processEnvs, hev] at hc
      exact hc
    | ok events =>
      by_cases h1 : stringValue env.Status = "Ready" ∧
          p.VersionLabel ≠ stringValue env.VersionLabel
      · cases events <;> simp [MultiEnv.processEnvs, hev, if_pos h1] at hc <;> exact hc
      · by_cases h2 : stringValue env.Status ≠ "Updating"
        · cases events <;>
            simp [MultiEnv.processEnvs, hev, if_neg h1, if_pos h2] at hc <;> exact hc
        · simp [MultiEnv.processEnvs, hev, if_neg h1, if_neg h2] at hc
          rcases hc with rfl | hc
          · rfl
          · exact ih (i + 1) c hc

/-- Every call of the multi-environment reconciliation loop is a describe
call. -/
theorem mexecLoop_calls_describe (p : MultiEnv.Plugin) (sigs : List MultiEnv.Signal) :
    ∀ c ∈ (MultiEnv.execLoop p sigs).2, isDescribe c = true := by
  induction sigs with
  | nil => intro c hc; simp [MultiEnv.execLoop] at hc
  | cons s rest ih =>
    cases s with
    | tout => intro c hc; simp [MultiEnv.execLoop] at hc
    | tick er evf =>
      intro c hc
      cases er with
      | error e =>
        simp [MultiEnv.execLoop] at hc
        subst hc; rfl
      | ok envs =>
        rcases hpe : MultiEnv.processEnvs p evf envs 0 with ⟨step, calls⟩
        have hcalls : ∀ x ∈ calls, x = RemoteCall.describeEvents := by
          intro x hx
          have h := processEnvs_calls p evf envs 0 x
          rw [hpe] at h
          exact h hx
        cases step with
        | stop r =>
          simp [MultiEnv.execLoop, hpe] at hc
          rcases hc with rfl | hc
          · rfl
          · rw [hcalls c hc]; rfl
        | next =>
          simp [MultiEnv.execLoop, hpe] at hc
          rcases hc with rfl | hc | hc
          · rfl
          · rw [hcalls c hc]; rfl
          · exact ih c hc

/-- Every call of the sequential update phase is an `UpdateEnvironment`. -/
theorem updateEnvironments_calls_update (f : String → Except EBError Unit) :
    ∀ l : List String, ∀ c ∈ (MultiEnv.updateEnvironments f l).2, isUpdate c = true := by
  intro l
  induction l with
  | nil => intro c hc; simp [MultiEnv.updateEnvironments] at hc
  | cons name rest ih =>
    intro c hc
    simp only [MultiEnv.updateEnvironments] at hc
    cases hf : f name with
    | error e =>
      rw [hf] at hc
      simp at hc
      subst hc; rfl
    | ok u =>
      rw [hf] at hc
      simp at hc
      rcases hc with rfl | hc
      · rfl
      · exact ih c hc

/-- The update phase issues updates for a sublist of the configured
environment names, in order. -/
theorem updateEnvironments_sublist (f : String → Except EBError Unit) :
    ∀ l : List String, ∃ l', List.Sublist l' l ∧
      (MultiEnv.updateEnvironments f l).2 = l'.map RemoteCall.updateEnvironment := by
  intro l
  induction l with
  | nil => exact ⟨[], List.Sublist.refl [], rfl⟩
  | cons name rest ih =>
    cases hf : f name with
    | error e =>
      refine ⟨[name], ?_, by simp [MultiEnv.updateEnvironments, hf]⟩
      exact List.Sublist.cons₂ name (List.nil_sublist rest)
    | ok u =>
      obtain ⟨l', hsub, heq⟩ := ih
      exact ⟨name :: l', List.Sublist.cons₂ name hsub,
        by simp [MultiEnv.updateEnvironments, hf, heq]⟩

/-- Counting an update call in a mapped name list counts the name. -/
theorem count_update_map (l : List String) (name : String) :
    (l.map RemoteCall.updateEnvironment).count (RemoteCall.updateEnvironment name) =
      l.count name := by
  induction l with
  | nil => rfl
  | cons a rest ih =>
    simp [List.count_cons, ih]

/-- In a trace shaped "no updates, one update, no updates", anything after
an update occurrence is in the final block. -/
theorem after_unique_update {A B : List RemoteCall} {u : RemoteCall}
    (hA : ∀ c ∈ A, isUpdate c = false) (hB : ∀ c ∈ B, isUpdate c = false) :
    ∀ (l1 l2 : List RemoteCall) (x : RemoteCall),
      A ++ u :: B = l1 ++ x :: l2 → isUpdate x = true → l2 = B := by
  induction A with
  | nil =>
    intro l1 l2 x heq hx
    cases l1 with
    | nil =>
      simp at heq
      exact heq.2.symm
    | cons a l1t =>
      simp at heq
      have hxB : x ∈ B := by
        rw [heq.2]
        exact List.mem_append_right _ (List.mem_cons_self x l2)
      rw [hB x hxB] at hx
      exact Bool.noConfusion hx
  | cons a At ih =>
    intro l1 l2 x heq hx
    cases l1 with
    | nil =>
      simp at heq
      have ha : isUpdate a = false := hA a (List.mem_cons_self a At)
      rw [heq.1] at ha
      rw [ha] at hx
      exact Bool.noConfusion hx
    | cons b l1t =>
      simp at heq
      exact ih (fun c hc => hA c (List.mem_cons_of_mem a hc)) l1t l2 x heq.2 hx

/-- Shape of the single-environment `Exec` trace: either it contains no
update call at all, or it contains exactly one — for the configured
environment — followed only by describe calls. -/
theorem exec_trace_shape (p : SingleEnv.Plugin) (w : SingleEnv.World) :
    (∀ c ∈ (SingleEnv.Exec p w).2, isUpdate c = false) ∨
    (∃ A B, (SingleEnv.Exec p w).2 =
        A ++ RemoteCall.updateEnvironment p.EnvironmentName :: B ∧
      (∀ c ∈ A, isUpdate c = false) ∧ (∀ c ∈ B, isDescribe c = true)) := by
  have hphase : (∀ c ∈ (SingleEnv.execUpdatePhase p w).2, isUpdate c = false) ∨
      (∃ A B, (SingleEnv.execUpdatePhase p w).2 =
          A ++ RemoteCall.updateEnvironment p.EnvironmentName :: B ∧
        (∀ c ∈ A, isUpdate c = false) ∧ (∀ c ∈ B, isDescribe c = true)) := by
    by_cases hupd : p.EnvironmentUpdate = true
    · rcases hw : (SingleEnv.waitEnvironmentToBeReady w.waitSignals).1 with _ | r
      · left
        intro c hc
        simp [SingleEnv.execUpdatePhase, hupd, hw] at hc
        rw [wait_calls_describe w.waitSignals c hc]
        rfl
      · cases r with
        | ok =>
          cases hu : w.updateEnvironmentResult with
          | error e =>
            right
            refine ⟨(SingleEnv.waitEnvironmentToBeReady w.waitSignals).2, [], ?_, ?_, ?_⟩
            · simp [SingleEnv.execUpdatePhase, hupd, hw, hu]
            · intro c hc
              rw [wait_calls_describe w.waitSignals c hc]
              rfl
            · intro c hc
              simp at hc
          | ok u =>
            right
            refine ⟨(SingleEnv.waitEnvironmentToBeReady w.waitSignals).2,
              (SingleEnv.execLoop p w.loopSignals).2, ?_, ?_, ?_⟩
            · simp [SingleEnv.execUpdatePhase, hupd, hw, hu]
            · intro c hc
              rw [wait_calls_describe w.waitSignals c hc]
              rfl
            · exact execLoop_calls_describe p w.loopSignals
        | fail e =>
          left
          intro c hc
          simp [SingleEnv.execUpdatePhase, hupd, hw] at hc
          rw [wait_calls_describe w.waitSignals c hc]
          rfl
        | crash =>
          left
          intro c hc
          simp [SingleEnv.execUpdatePhase, hupd, hw] at hc
          rw [wait_calls_describe w.waitSignals c hc]
          rfl
    · left
      intro c hc
      simp [SingleEnv.execUpdatePhase, hupd] at hc
  by_cases hbc : p.Bucket ≠ "" ∧ p.BucketKey ≠ ""
  · cases hcv : w.createVersionResult with
    | error ce =>
      by_cases hupd2 : p.EnvironmentUpdate = false
      · left
        intro c hc
        simp [SingleEnv.Exec, hbc, hcv, hupd2] at hc
        subst hc
        rfl
      · rcases hphase with h | ⟨A, B, hAB, hA, hB⟩
        · left
          intro c hc
          simp [SingleEnv.Exec, hbc, hcv, hupd2] at hc
          rcases hc with rfl | hc
          · rfl
          · exact h c hc
        · right
          refine ⟨RemoteCall.createVersion :: A, B, ?_, ?_, hB⟩
          · simp [SingleEnv.Exec, hbc, hcv, hupd2, hAB]
          · intro c hc
            rcases List.mem_cons.mp hc with rfl | hc
            · rfl
            · exact hA c hc
    | ok u =>
      rcases hphase with h | ⟨A, B, hAB, hA, hB⟩
      · left
        intro c hc
        simp [SingleEnv.Exec, hbc, hcv] at hc
        rcases hc with rfl | hc
        · rfl
        · exact h c hc
      · right
        refine ⟨RemoteCall.createVersion :: A, B, ?_, ?_, hB⟩
        · simp [SingleEnv.Exec, hbc, hcv, hAB]
        · intro c hc
          rcases List.mem_cons.mp hc with rfl | hc
          · rfl
          · exact hA c hc
  · rcases hphase with h | ⟨A, B, hAB, hA, hB⟩
    · left
      intro c hc
      rw [SingleEnv.Exec, if_neg hbc] at hc
      exact h c hc
    · right
      refine ⟨A, B, ?_, hA, hB⟩
      rw [SingleEnv.Exec, if_neg hbc]
      exact hAB

/-- Shape of the multi-environment `Exec` trace: an optional
`CreateApplicationVersion`, then the updates for a sublist of the configured
environments, then describe calls only. -/
theorem mexec_trace_shape (p : MultiEnv.Plugin) (w : MultiEnv.World) :
    ∃ cs us ps, (MultiEnv.Exec p w).2 = cs ++ us ++ ps ∧
      (∀ c ∈ cs, c = RemoteCall.createVersion) ∧
      (∃ l', List.Sublist l' p.Environments ∧
        us = l'.map RemoteCall.updateEnvironment) ∧
      (∀ c ∈ ps, isDescribe c = true) := by
  have hafter : ∃ us ps, (MultiEnv.execAfterCreate p w).2 = us ++ ps ∧
      (∃ l', List.Sublist l' p.Environments ∧
        us = l'.map RemoteCall.updateEnvironment) ∧
      (∀ c ∈ ps, isDescribe c = true) := by
    by_cases hupd : p.EnvironmentUpdate = true
    · obtain ⟨l', hsub, heq⟩ :=
        updateEnvironments_sublist w.updateEnvironmentResult p.Environments
      rcases hu : (MultiEnv.updateEnvironments w.updateEnvironmentResult p.Environments).1
        with _ | e
      · refine ⟨(MultiEnv.updateEnvironments w.updateEnvironmentResult p.Environments).2,
          (MultiEnv.execLoop p w.loopSignals).2, ?_, ⟨l', hsub, heq⟩, ?_⟩
        · simp [MultiEnv.execAfterCreate, hupd, hu]
        · exact mexecLoop_calls_describe p w.loopSignals
      · refine ⟨(MultiEnv.updateEnvironments w.updateEnvironmentResult p.Environments).2,
          [], ?_, ⟨l', hsub, heq⟩, ?_⟩
        · simp [MultiEnv.execAfterCreate, hupd, hu]
        · intro c hc
          simp at hc
    · refine ⟨[], [], ?_, ⟨[], List.nil_sublist _, rfl⟩, ?_⟩
      · simp [MultiEnv.execAfterCreate, hupd]
      · intro c hc
        simp at hc
  obtain ⟨us, ps, hsplit, hus, hps⟩ := hafter
  by_cases hbc : p.Bucket ≠ "" ∧ p.BucketKey ≠ ""
  · cases hcv : w.createVersionResult with
    | error ce =>
      refine ⟨[RemoteCall.createVersion], [], [], ?_, ?_, ⟨[], List.nil_sublist _, rfl⟩, ?_⟩
      · simp [MultiEnv.Exec, hbc, hcv]
      · intro c hc
        simp at hc
        exact hc
      · intro c hc
        simp at hc
    | ok u =>
      refine ⟨[RemoteCall.createVersion], us, ps, ?_, ?_, hus, hps⟩
      · simp [MultiEnv.Exec, hbc, hcv, hsplit]
      · intro c hc
        simp at hc
        exact hc
  · refine ⟨[], us, ps, ?_, ?_, hus, hps⟩
    · rw [MultiEnv.Exec, if_neg hbc]
      simpa using hsplit
    · intro c hc
      simp at hc

/-- Multi-environment plugin whose configured environment list names the
same environment twice. -/
def p8 : MultiEnv.Plugin :=
  ⟨"", "", "", "us-east-1", "", "app", ["a", "a"], "v1", "", false, false, true, 20⟩

/-- A world for `p8` where every update succeeds and the loop times out. -/
def w8 : MultiEnv.World :=
  ⟨Except.ok (), fun _ => Except.ok (), [MultiEnv.Signal.tout]⟩

/-- C8, counterexample: when the configured environment list repeats a name,
the multi-environment variant issues one `UpdateEnvironment` per list entry,
so the environment `a` receives two update requests in one invocation —
and the second one is remote interaction after the first update call that is
not a read-only poll. -/
theorem claim_C8_counterexample :
    (MultiEnv.Exec p8 w8).2 =
      [RemoteCall.updateEnvironment "a", RemoteCall.updateEnvironment "a"] ∧
    (MultiEnv.Exec p8 w8).2.count (RemoteCall.updateEnvironment "a") = 2 := by
  exact ⟨rfl, rfl⟩

/-- C8, amended: in the single-environment variant every run issues at most
one `UpdateEnvironment`, and every call after it is a read-only describe
call.  In the multi-environment variant, every run's trace is an optional
`CreateApplicationVersion` and a block of `UpdateEnvironment` calls followed
only by read-only describe calls, and when the configured environment names
are distinct each environment receives at most one `UpdateEnvironment`. -/
theorem claim_C8 :
    (∀ (p : SingleEnv.Plugin) (w : SingleEnv.World),
      (SingleEnv.Exec p w).2.countP isUpdate ≤ 1 ∧
      (∀ (l1 l2 : List RemoteCall) (name : String),
        (SingleEnv.Exec p w).2 = l1 ++ RemoteCall.updateEnvironment name :: l2 →
        ∀ c ∈ l2, isDescribe c = true)) ∧
    (∀ (p : MultiEnv.Plugin) (w : MultiEnv.World),
      (p.Environments.Nodup →
        ∀ name, (MultiEnv.Exec p w).2.count (RemoteCall.updateEnvironment name) ≤ 1) ∧
      (∃ us ps, (MultiEnv.Exec p w).2 = us ++ ps ∧
        (∀ c ∈ us, c = RemoteCall.createVersion ∨ isUpdate c = true) ∧
        (∀ c ∈ ps, isDescribe c = true))) := by
  constructor
  · intro p w
    rcases exec_trace_shape p w with h | ⟨A, B, hAB, hA, hB⟩
    · constructor
      · have h0 : (SingleEnv.Exec p w).2.countP isUpdate = 0 :=
          List.countP_eq_zero.mpr (fun c hc => by simp [h c hc])
        omega
      · intro l1 l2 name heq c hc
        have hmem : RemoteCall.updateEnvironment name ∈ (SingleEnv.Exec p w).2 := by
          rw [heq]
          exact List.mem_append_right _ (List.mem_cons_self _ _)
        have hfalse := h _ hmem
        simp [isUpdate] at hfalse
    · have hBupd : ∀ c ∈ B, isUpdate c = false :=
        fun c hc => describe_not_update c (hB c hc)
      constructor
      · have hA0 : A.countP isUpdate = 0 :=
          List.countP_eq_zero.mpr (fun c hc => by simp [hA c hc])
        have hB0 : B.countP isUpdate = 0 :=
          List.countP_eq_zero.mpr (fun c hc => by simp [hBupd c hc])
        rw [hAB]
        simp [List.countP_append, List.countP_cons, hA0, hB0, isUpdate]
      · intro l1 l2 name heq c hc
        rw [hAB] at heq
        have hl2 := after_unique_update hA hBupd l1 l2
          (RemoteCall.updateEnvironment name) heq rfl
        exact hB c (hl2 ▸ hc)
  · intro p w
    obtain ⟨cs, us, ps, hsplit, hcs, ⟨l', hsub, husl⟩, hps⟩ := mexec_trace_shape p w
    constructor
    · intro hnd name
      have hcs0 : cs.count (RemoteCall.updateEnvironment name) = 0 := by
        rw [List.count_eq_zero]
        intro hmem
        have hval := hcs _ hmem
        simp at hval
      have hps0 : ps.count (RemoteCall.updateEnvironment name) = 0 := by
        rw [List.count_eq_zero]
        intro hmem
        have hval := hps _ hmem
        simp [isDescribe] at hval
      have hus1 : us.count (RemoteCall.updateEnvironment name) ≤ 1 := by
        rw [husl, count_update_map]
        exact le_trans (hsub.count_le name) (List.nodup_iff_count_le_one.mp hnd name)
      rw [hsplit]
      simp only [List.count_append]
      omega
    · refine ⟨cs ++ us, ps, ?_, ?_, hps⟩
      · rw [hsplit, List.append_assoc]
      · intro c hc
        rcases List.mem_append.mp hc with hc | hc
        · exact Or.inl (hcs c hc)
        · right
          rw [husl] at hc
          obtain ⟨a, ha, rfl⟩ := List.mem_map.mp hc
          rfl

/-- C8, witness: the amended statement applied at concrete runs — the
successful single-environment run of `w1s` and the multi-environment run
with distinct environments `[a, b]`. -/
theorem claim_C8_witness :
    (SingleEnv.Exec p1s w1s).2.countP isUpdate ≤ 1 ∧
    (∀ c ∈ [RemoteCall.describeEnvironments, RemoteCall.describeEvents],
      isDescribe c = true) ∧
    (MultiEnv.Exec p3 w3).2.count (RemoteCall.updateEnvironment "a") ≤ 1 :=
  ⟨(claim_C8.1 p1s w1s).1,
   (claim_C8.1 p1s w1s).2 [RemoteCall.describeEnvironments]
     [RemoteCall.describeEnvironments, RemoteCall.describeEvents] "e1" rfl,
   (claim_C8.2 p3 w3).1 (by decide) "a"⟩

/-- A tick body over non-empty successful responses never crashes. -/
theorem tickBody_safe (p : SingleEnv.Plugin)
    (er : Except EBError (List EBEnvironment)) (vr : Except EBError (List EBEvent))
    (her : SafeEnvResp er) (hvr : SafeEvResp vr) :
    SingleEnv.tickBody p er vr ≠ TickStep.stop GoResult.crash := by
  cases er with
  | error e => simp [SingleEnv.tickBody]
  | ok envs =>
    cases vr with
    | error e => simp [SingleEnv.tickBody]
    | ok events =>
      cases envs with
      | nil => exact absurd rfl her
      | cons env etail =>
        cases events with
        | nil => exact absurd rfl hvr
        | cons ev evtail =>
          intro h
          simp only [SingleEnv.tickBody] at h
          split_ifs at h <;> simp_all

/-- The single-environment loop never crashes on safe signals. -/
theorem execLoop_safe (p : SingleEnv.Plugin) (sigs : List SingleEnv.Signal)
    (hs : ∀ s ∈ sigs, SingleEnv.SafeSignal s) :
    (SingleEnv.execLoop p sigs).1 ≠ some GoResult.crash := by
  induction sigs with
  | nil => simp [SingleEnv.execLoop]
  | cons s rest ih =>
    cases s with
    | tout => simp [SingleEnv.execLoop]
    | tick er vr =>
      obtain ⟨her, hvr⟩ : SingleEnv.SafeSignal (SingleEnv.Signal.tick er vr) :=
        hs _ (List.mem_cons_self _ _)
      cases htb : SingleEnv.tickBody p er vr with
      | stop r =>
        have hnc := tickBody_safe p er vr her hvr
        rw [htb] at hnc
        simp at hnc
        simp [SingleEnv.execLoop, htb, hnc]
      | next =>
        simp [SingleEnv.execLoop, htb]
        exact ih (fun t ht => hs t (List.mem_cons_of_mem _ ht))

/-- The readiness wait never crashes on safe signals. -/
theorem wait_safe (sigs : List SingleEnv.WaitSignal)
    (hs : ∀ s ∈ sigs, SingleEnv.SafeWaitSignal s) :
    (SingleEnv.waitEnvironmentToBeReady sigs).1 ≠ some GoResult.crash := by
  induction sigs with
  | nil => simp [SingleEnv.waitEnvironmentToBeReady]
  | cons s rest ih =>
    cases s with
    | tout => simp [SingleEnv.waitEnvironmentToBeReady]
    | tick er =>
      have her : SingleEnv.SafeWaitSignal (SingleEnv.WaitSignal.tick er) :=
        hs _ (List.mem_cons_self _ _)
      cases er with
      | error e => simp [SingleEnv.waitEnvironmentToBeReady]
      | ok envs =>
        cases envs with
        | nil => exact absurd rfl her
        | cons env etail =>
          by_cases h : stringValue env.Status = "Ready"
          · simp [SingleEnv.waitEnvironmentToBeReady, h]
          · simp [SingleEnv.waitEnvironmentToBeReady, h]
            exact ih (fun t ht => hs t (List.mem_cons_of_mem _ ht))

/-- The single-environment `Exec` never crashes on a safe world. -/
theorem exec_safe (p : SingleEnv.Plugin) (w : SingleEnv.World)
    (hw : SingleEnv.SafeWorld w) :
    (SingleEnv.Exec p w).1 ≠ some GoResult.crash := by
  have hphase : (SingleEnv.execUpdatePhase p w).1 ≠ some GoResult.crash := by
    by_cases hupd : p.EnvironmentUpdate = true
    · rcases hwres : (SingleEnv.waitEnvironmentToBeReady w.waitSignals).1 with _ | r
      · simp [SingleEnv.execUpdatePhase, hupd, hwres]
      · cases r with
        | ok =>
          cases hu : w.updateEnvironmentResult with
          | error e => simp [SingleEnv.execUpdatePhase, hupd, hwres, hu]
          | ok u =>
            simp [SingleEnv.execUpdatePhase, hupd, hwres, hu]
            exact execLoop_safe p w.loopSignals hw.2
        | fail e => simp [SingleEnv.execUpdatePhase, hupd, hwres]
        | crash => exact absurd hwres (wait_safe w.waitSignals hw.1)
    · simp [SingleEnv.execUpdatePhase, hupd]
  by_cases hbc : p.Bucket ≠ "" ∧ p.BucketKey ≠ ""
  · cases hcv : w.createVersionResult with
    | error ce =>
      by_cases hupd2 : p.EnvironmentUpdate = false
      · simp [SingleEnv.Exec, hbc, hcv, hupd2]
      · simp [SingleEnv.Exec, hbc, hcv, hupd2]
        exact hphase
    | ok u =>
      simp [SingleEnv.Exec, hbc, hcv]
      exact hphase
  · rw [SingleEnv.Exec, if_neg hbc]
    exact hphase

/-- The per-environment processing never crashes when every successful
events response is non-empty. -/
theorem processEnvs_safe (p : MultiEnv.Plugin)
    (evf : Nat → Except EBError (List EBEvent)) (hevf : ∀ i, SafeEvResp (evf i)) :
    ∀ (envs : List EBEnvironment) (i : Nat),
      (MultiEnv.processEnvs p evf envs i).1 ≠ TickStep.stop GoResult.crash := by
  intro envs
  induction envs with
  | nil => intro i; simp [MultiEnv.processEnvs]
  | cons env rest ih =>
    intro i
    cases hev : evf i with
    | error e => simp [MultiEnv.processEnvs, hev]
    | ok events =>
      cases events with
      | nil =>
        have hsafe := hevf i
        rw [hev] at hsafe
        exact absurd rfl hsafe
      | cons ev evtail =>
        by_cases h1 : stringValue env.Status = "Ready" ∧
            p.VersionLabel ≠ stringValue env.VersionLabel
        · simp [MultiEnv.processEnvs, hev, if_pos h1]
        · by_cases h2 : stringValue env.Status ≠ "Updating"
          · simp [MultiEnv.processEnvs, hev, if_neg h1, if_pos h2]
          · simp [MultiEnv.processEnvs, hev, if_neg h1, if_neg h2]
            exact ih (i + 1)

/-- The multi-environment loop never crashes on safe signals. -/
theorem mexecLoop_safe (p : MultiEnv.Plugin) (sigs : List MultiEnv.Signal)
    (hs : ∀ s ∈ sigs, MultiEnv.SafeSignal s) :
    (MultiEnv.execLoop p sigs).1 ≠ some GoResult.crash := by
  induction sigs with
  | nil => simp [MultiEnv.execLoop]
  | cons s rest ih =>
    cases s with
    | tout => simp [MultiEnv.execLoop]
    | tick er evf =>
      have hevf : ∀ i, SafeEvResp (evf i) := hs _ (List.mem_cons_self _ _)
      cases er with
      | error e => simp [MultiEnv.execLoop]
      | ok envs =>
        rcases hpe : MultiEnv.processEnvs p evf envs 0 with ⟨step, calls⟩
        have hnc := processEnvs_safe p evf hevf envs 0
        rw [hpe] at hnc
        cases step with
        | stop r =>
          simp at hnc
          simp [MultiEnv.execLoop, hpe, hnc]
        | next =>
          simp [MultiEnv.execLoop, hpe]
          exact ih (fun t ht => hs t (List.mem_cons_of_mem _ ht))

/-- The multi-environment `Exec` never crashes on a safe world. -/
theorem mexec_safe (p : MultiEnv.Plugin) (w : MultiEnv.World)
    (hw : MultiEnv.SafeWorld w) :
    (MultiEnv.Exec p w).1 ≠ some GoResult.crash := by
  have hafter : (MultiEnv.execAfterCreate p w).1 ≠ some GoResult.crash := by
    by_cases hupd : p.EnvironmentUpdate = true
    · rcases hu : (MultiEnv.updateEnvironments w.updateEnvironmentResult
        p.Environments).1 with _ | e
      · simp [MultiEnv.execAfterCreate, hupd, hu]
        exact mexecLoop_safe p w.loopSignals hw
      · simp [MultiEnv.execAfterCreate, hupd, hu]
    · simp [MultiEnv.execAfterCreate, hupd]
  by_cases hbc : p.Bucket ≠ "" ∧ p.BucketKey ≠ ""
  · cases hcv : w.createVersionResult with
    | error ce => simp [MultiEnv.Exec, hbc, hcv]
    | ok u =>
      simp [MultiEnv.Exec, hbc, hcv]
      exact hafter
  · rw [MultiEnv.Exec, if_neg hbc]
    exact hafter

/-- C9: the poll handlers index `Environments[0]` / `Events[0]` without an
emptiness check — a successful-but-empty `DescribeEnvironments` response
crashes the single-environment reconcile tick and the readiness-wait tick,
and a successful-but-empty `DescribeEvents` response crashes the
single-environment reconcile tick and the multi-environment failure
branches.  Conversely, when every successful poll response carried by the
world is non-empty, neither variant's `Exec` can crash. -/
theorem claim_C9 :
    SingleEnv.execLoop p1s [SingleEnv.Signal.tick (Except.ok []) (Except.ok [ev1])] =
      (some GoResult.crash,
       [RemoteCall.describeEnvironments, RemoteCall.describeEvents]) ∧
    SingleEnv.execLoop p1s
        [SingleEnv.Signal.tick (Except.ok [updatingEnv]) (Except.ok [])] =
      (some GoResult.crash,
       [RemoteCall.describeEnvironments, RemoteCall.describeEvents]) ∧
    SingleEnv.waitEnvironmentToBeReady [SingleEnv.WaitSignal.tick (Except.ok [])] =
      (some GoResult.crash, [RemoteCall.describeEnvironments]) ∧
    MultiEnv.execLoop p1m
        [MultiEnv.Signal.tick (Except.ok [readyEnv "v9"]) (fun _ => Except.ok [])] =
      (some GoResult.crash,
       [RemoteCall.describeEnvironments, RemoteCall.describeEvents]) ∧
    (∀ (p : SingleEnv.Plugin) (w : SingleEnv.World), SingleEnv.SafeWorld w →
      (SingleEnv.Exec p w).1 ≠ some GoResult.crash) ∧
    (∀ (p : MultiEnv.Plugin) (w : MultiEnv.World), MultiEnv.SafeWorld w →
      (MultiEnv.Exec p w).1 ≠ some GoResult.crash) := by
  exact ⟨rfl, rfl, rfl, rfl, exec_safe, mexec_safe⟩

/-- C9, witness: the no-crash halves applied to the concrete safe worlds of
the successful runs. -/
theorem claim_C9_witness :
    (SingleEnv.Exec p1s w1s).1 ≠ some GoResult.crash ∧
    (MultiEnv.Exec p1m w1m).1 ≠ some GoResult.crash := by
  constructor
  · refine claim_C9.2.2.2.2.1 p1s w1s ⟨?_, ?_⟩
    · intro s hs
      rcases List.mem_singleton.mp hs with rfl
      exact List.cons_ne_nil _ _
    · intro s hs
      rcases List.mem_cons.mp hs with rfl | hs
      · exact ⟨List.cons_ne_nil _ _, List.cons_ne_nil _ _⟩
      · rcases List.mem_singleton.mp hs with rfl
        exact ⟨List.cons_ne_nil _ _, List.cons_ne_nil _ _⟩
  · refine claim_C9.2.2.2.2.2 p1m w1m ?_
    intro s hs
    rcases List.mem_singleton.mp hs with rfl
    intro i
    exact List.cons_ne_nil _ _

/-- C10: when no environment update is requested, `Exec` of either variant
issues no `UpdateEnvironment`, `DescribeEnvironments` or `DescribeEvents`
call — its whole call trace is at most the one `CreateApplicationVersion` —
and it returns success except exactly when that `CreateApplicationVersion`
call was made and failed, in which case it returns that error. -/
theorem claim_C10 :
    (∀ (p : SingleEnv.Plugin) (w : SingleEnv.World), p.EnvironmentUpdate = false →
      (∀ c ∈ (SingleEnv.Exec p w).2, c = RemoteCall.createVersion) ∧
      ((SingleEnv.Exec p w).1 = some GoResult.ok ∨
        ∃ e, w.createVersionResult = Except.error e ∧
          SingleEnv.Exec p w = (some (GoResult.fail e), [RemoteCall.createVersion]))) ∧
    (∀ (p : MultiEnv.Plugin) (w : MultiEnv.World), p.EnvironmentUpdate = false →
      (∀ c ∈ (MultiEnv.Exec p w).2, c = RemoteCall.createVersion) ∧
      ((MultiEnv.Exec p w).1 = some GoResult.ok ∨
        ∃ e, w.createVersionResult = Except.error e ∧
          MultiEnv.Exec p w = (some (GoResult.fail e), [RemoteCall.createVersion]))) := by
  constructor
  · intro p w hupd
    have hphase : SingleEnv.execUpdatePhase p w = (some GoResult.ok, []) := by
      simp [SingleEnv.execUpdatePhase, hupd]
    by_cases hbc : p.Bucket ≠ "" ∧ p.BucketKey ≠ ""
    · cases hcv : w.createVersionResult with
      | error ce =>
        constructor
        · intro c hc
          simp [SingleEnv.Exec, hbc, hcv, hupd] at hc
          exact hc
        · exact Or.inr ⟨ce, rfl, by simp [SingleEnv.Exec, hbc, hcv, hupd]⟩
      | ok u =>
        constructor
        · intro c hc
          simp [SingleEnv.Exec, hbc, hcv, hphase] at hc
          exact hc
        · left
          simp [SingleEnv.Exec, hbc, hcv, hphase]
    · constructor
      · intro c hc
        rw [SingleEnv.Exec, if_neg hbc, hphase] at hc
        simp at hc
      · left
        rw [SingleEnv.Exec, if_neg hbc, hphase]
  · intro p w hupd
    have hafter : MultiEnv.execAfterCreate p w = (some GoResult.ok, []) := by
      simp [MultiEnv.execAfterCreate, hupd]
    by_cases hbc : p.Bucket ≠ "" ∧ p.BucketKey ≠ ""
    · cases hcv : w.createVersionResult with
      | error ce =>
        constructor
        · intro c hc
          simp [MultiEnv.Exec, hbc, hcv] at hc
          exact hc
        · exact Or.inr ⟨ce, rfl, by simp [MultiEnv.Exec, hbc, hcv]⟩
      | ok u =>
        constructor
        · intro c hc
          simp [MultiEnv.Exec, hbc, hcv, hafter] at hc
          exact hc
        · left
          simp [MultiEnv.Exec, hbc, hcv, hafter]
    · constructor
      · intro c hc
        rw [MultiEnv.Exec, if_neg hbc, hafter] at hc
        simp at hc
      · left
        rw [MultiEnv.Exec, if_neg hbc, hafter]

/-- A single-environment world with no remote activity prepared. -/
def w10 : SingleEnv.World := ⟨Except.ok (), [], Except.ok (), []⟩

/-- A multi-environment world with no remote activity prepared. -/
def w10m : MultiEnv.World := ⟨Except.ok (), fun _ => Except.ok (), []⟩

/-- Multi-environment plugin with an artifact location and no environment
update requested. -/
def p10m : MultiEnv.Plugin :=
  ⟨"", "", "b", "us-east-1", "k", "app", ["e1"], "v1", "", false, false, false, 20⟩

/-- C10, witness: with `environment-update` off and a successful version
creation, each variant's run calls only `CreateApplicationVersion` and
succeeds. -/
theorem claim_C10_witness :
    ((∀ c ∈ (SingleEnv.Exec p2s w10).2, c = RemoteCall.createVersion) ∧
      ((SingleEnv.Exec p2s w10).1 = some GoResult.ok ∨
        ∃ e, w10.createVersionResult = Except.error e ∧
          SingleEnv.Exec p2s w10 = (some (GoResult.fail e), [RemoteCall.createVersion]))) ∧
    ((∀ c ∈ (MultiEnv.Exec p10m w10m).2, c = RemoteCall.createVersion) ∧
      ((MultiEnv.Exec p10m w10m).1 = some GoResult.ok ∨
        ∃ e, w10m.createVersionResult = Except.error e ∧
          MultiEnv.Exec p10m w10m = (some (GoResult.fail e), [RemoteCall.createVersion]))) :=
  ⟨claim_C10.1 p2s w10 rfl, claim_C10.2 p10m w10m rfl⟩

end DroneEB
